import Mathlib

set_option maxRecDepth 10000

/-!
Shallow embedding of the sampling/differencing engine of
gnome-shell-extension-system-monitor (src/extension.js).

JavaScript numbers that can carry the IEEE special values produced by the
source (division by zero, parseInt failures) are modelled by `JSNum`:
exact rationals plus Infinity, -Infinity and NaN.  The module-level
mutable counters (lastTotalNetDownBytes, lastTotalNetUpBytes, lastCPUUsed,
lastCPUTotal) become an explicit `GlobalState` threaded through the
reader functions.  File reads that may throw (Gio load_contents) are
modelled by an `Option String` input: `none` is the exception path, which
the source catches, logging and returning the initial zero result.
-/

/-- Model of a JavaScript number: an exact rational, or one of the IEEE
special values Infinity, -Infinity, NaN. -/
inductive JSNum where
  | fin : ℚ → JSNum
  | posInf : JSNum
  | negInf : JSNum
  | nan : JSNum
deriving DecidableEq

namespace JSNum

/-- JavaScript addition on the modelled numbers. -/
def add : JSNum → JSNum → JSNum
  | .fin a, .fin b => .fin (a + b)
  | .nan, _ => .nan
  | _, .nan => .nan
  | .posInf, .negInf => .nan
  | .negInf, .posInf => .nan
  | .posInf, _ => .posInf
  | _, .posInf => .posInf
  | .negInf, _ => .negInf
  | _, .negInf => .negInf

/-- JavaScript negation. -/
def neg : JSNum → JSNum
  | .fin a => .fin (-a)
  | .posInf => .negInf
  | .negInf => .posInf
  | .nan => .nan

/-- JavaScript subtraction. -/
def sub (a b : JSNum) : JSNum := a.add b.neg

/-- JavaScript division, including the zero-denominator behaviour the
source does not guard against: q/0 is Infinity, -Infinity or NaN
according to the sign of q.  (Signed zeros are not modelled.) -/
def div : JSNum → JSNum → JSNum
  | .nan, _ => .nan
  | _, .nan => .nan
  | .fin a, .fin b =>
      if b ≠ 0 then .fin (a / b)
      else if 0 < a then .posInf
      else if a < 0 then .negInf
      else .nan
  | .posInf, .posInf => .nan
  | .posInf, .negInf => .nan
  | .negInf, .posInf => .nan
  | .negInf, .negInf => .nan
  | .posInf, .fin b => if 0 ≤ b then .posInf else .negInf
  | .negInf, .fin b => if 0 ≤ b then .negInf else .posInf
  | .fin _, .posInf => .fin 0
  | .fin _, .negInf => .fin 0

/-- The JavaScript strict test `x !== 0`.  NaN !== 0 is true. -/
def neZero : JSNum → Bool
  | .fin q => decide (q ≠ 0)
  | _ => true

/-- The JavaScript test `x > 0`.  NaN > 0 is false. -/
def gtZero : JSNum → Bool
  | .fin q => decide (0 < q)
  | .posInf => true
  | _ => false

end JSNum

/-- A word character in the sense of the JavaScript regex \W (its
complement): ASCII letter, digit or underscore. -/
def isWordChar (c : Char) : Bool := c.isAlphanum || c = '_'

/-- JavaScript String.prototype.split with the separator regex \W+ on a
character list: the list is cut at each maximal run of non-word
characters; an empty piece appears at the start (resp. end) when the
input starts (resp. ends) with a non-word character, and the empty input
gives a single empty piece, exactly as in JavaScript. -/
def splitWordRuns : List Char → List (List Char)
  | [] => [[]]
  | [c] => if isWordChar c then [[c]] else [[], []]
  | c :: d :: rest =>
      let r := splitWordRuns (d :: rest)
      if isWordChar c then
        match r with
        | [] => [[c]]
        | g :: gs => (c :: g) :: gs
      else
        if isWordChar d then [] :: r else r

/-- JavaScript String.prototype.trim on the character list of a string. -/
def jsTrim (s : String) : List Char :=
  ((s.data.dropWhile Char.isWhitespace).reverse.dropWhile Char.isWhitespace).reverse

/-- The field splitting the source applies to every line it parses:
line.trim().split(/\W+/). -/
def jsTokenize (line : String) : List String :=
  (splitWordRuns (jsTrim line)).map fun cs => String.mk cs

/-- JavaScript String.prototype.split('\n') on a character list: cut at
every newline character, keeping empty pieces. -/
def splitLinesChars : List Char → List (List Char)
  | [] => [[]]
  | c :: rest =>
      let r := splitLinesChars rest
      if c = '\n' then [] :: r
      else
        match r with
        | [] => [[c]]
        | g :: gs => (c :: g) :: gs

/-- content.split('\n') of the source. -/
def jsSplitLines (content : String) : List String :=
  (splitLinesChars content.data).map fun cs => String.mk cs

/-- Numeric value of a list of decimal digit characters, most significant
first. -/
def digitsToNat (cs : List Char) : ℕ :=
  cs.foldl (fun a c => a * 10 + (c.toNat - 48)) 0

/-- Hexadecimal digit test, as accepted by JavaScript parseInt after an
0x prefix. -/
def isHexDigitChar (c : Char) : Bool :=
  c.isDigit || ('a' ≤ c && c ≤ 'f') || ('A' ≤ c && c ≤ 'F')

/-- Value of one hexadecimal digit character. -/
def hexDigitVal (c : Char) : ℕ :=
  if c.isDigit then c.toNat - 48
  else if 'a' ≤ c && c ≤ 'f' then c.toNat - 87
  else c.toNat - 55

/-- Numeric value of a list of hexadecimal digit characters. -/
def hexDigitsToNat (cs : List Char) : ℕ :=
  cs.foldl (fun a c => a * 16 + hexDigitVal c) 0

/-- JavaScript Number.parseInt on a token produced by the \W+ split
(hence sign-free and whitespace-free): `none` models NaN.  A 0x/0X
prefixed token is read as hexadecimal; otherwise the maximal leading run
of decimal digits is read, and an empty run is NaN. -/
def parseIntJS (s : String) : Option ℕ :=
  let cs := s.data
  if 2 ≤ cs.length ∧ cs.headI = '0' ∧ (cs.getD 1 ' ' = 'x' ∨ cs.getD 1 ' ' = 'X') then
    let ds := (cs.drop 2).takeWhile isHexDigitChar
    if ds.isEmpty then none else some (hexDigitsToNat ds)
  else
    let ds := cs.takeWhile Char.isDigit
    if ds.isEmpty then none else some (digitsToNat ds)

/-- parseInt applied to fields[i]: an out-of-range index is JavaScript
undefined, and parseInt(undefined) is NaN. -/
def parseIntAt (f : List String) (i : ℕ) : Option ℕ :=
  match f.get? i with
  | none => none
  | some s => parseIntJS s

/-- parseInt as a JSNum, for the CPU and memory readers whose NaN results
flow into arithmetic instead of being filtered out. -/
def parseIntNum (o : Option String) : JSNum :=
  match o with
  | none => .nan
  | some s =>
      match parseIntJS s with
      | none => .nan
      | some n => .fin n

/-- The four module-level mutable counters of extension.js. -/
structure GlobalState where
  lastTotalNetDownBytes : JSNum
  lastTotalNetUpBytes : JSNum
  lastCPUUsed : JSNum
  lastCPUTotal : JSNum
deriving DecidableEq

/-- The reset performed at the top of SSMExtension.enable(): all four
counters back to the 0 sentinel. -/
def enableGlobals : GlobalState := ⟨.fin 0, .fin 0, .fin 0, .fin 0⟩

/-- The virtual/tunnel name literals of the exclusion regex in
getCurrentNetSpeed. -/
def excludedIfacePats : List String :=
  ["ifb", "lxdbr", "virbr", "br", "vnet", "tun", "tap"]

/-- Matching of the regex fragment p[0-9]+ anchored at the start of a
string: the characters of p, then at least one decimal digit. -/
def patDigitMatch : List Char → List Char → Bool
  | [], [] => false
  | [], c :: _ => c.isDigit
  | _ :: _, [] => false
  | p :: ps, c :: cs => p == c && patDigitMatch ps cs

/-- The test iface.match(/^(ifb|lxdbr|virbr|br|vnet|tun|tap)[0-9]+/) of
getCurrentNetSpeed. -/
def matchesVirtualIface (s : String) : Bool :=
  excludedIfacePats.any fun p => patDigitMatch p.data s.data

/-- The full name-based exclusion of getCurrentNetSpeed: the loopback
name, or a virtual/tunnel name. -/
def isExcludedIface (s : String) : Bool :=
  s == "lo" || matchesVirtualIface s

/-- One iteration of the line loop of getCurrentNetSpeed, accumulating
the (down, up) byte totals.  Lines with at most 2 fields are skipped;
excluded interfaces and lines whose fields 1 or 9 do not parse are
skipped; otherwise fields 1 and 9 are added to the totals. -/
def netLineContrib (acc : ℕ × ℕ) (line : String) : ℕ × ℕ :=
  let f := jsTokenize line
  if f.length ≤ 2 then acc
  else
    let iface := f.headI
    let down := parseIntAt f 1
    let up := parseIntAt f 9
    if iface = "lo" ∨ matchesVirtualIface iface = true ∨ down = none ∨ up = none then acc
    else (acc.1 + down.getD 0, acc.2 + up.getD 0)

/-- The (totalDownBytes, totalUpBytes) accumulation of getCurrentNetSpeed
over the lines of the /proc/net/dev content. -/
def netTotals (content : String) : ℕ × ℕ :=
  (jsSplitLines content).foldl netLineContrib (0, 0)

/-- getCurrentNetSpeed(refreshInterval): reads /proc/net/dev (a `none`
input models a throwing read, caught by the source, which then returns
the initial zero speeds without touching the counters), sums the
per-interface byte totals, computes each direction's rate only when the
stored previous total differs from 0, and stores the new totals. -/
def getCurrentNetSpeed (input : Option String) (refreshInterval : ℚ) (st : GlobalState) :
    (JSNum × JSNum) × GlobalState :=
  match input with
  | none => ((.fin 0, .fin 0), st)
  | some content =>
      let t := netTotals content
      let down :=
        if st.lastTotalNetDownBytes.neZero then
          ((JSNum.fin (t.1 : ℚ)).sub st.lastTotalNetDownBytes).div (.fin refreshInterval)
        else .fin 0
      let up :=
        if st.lastTotalNetUpBytes.neZero then
          ((JSNum.fin (t.2 : ℚ)).sub st.lastTotalNetUpBytes).div (.fin refreshInterval)
        else .fin 0
      ((down, up),
        { st with lastTotalNetDownBytes := .fin (t.1 : ℚ),
                  lastTotalNetUpBytes := .fin (t.2 : ℚ) })

/-- getCurrentCPUUsage(): parses the first line of /proc/stat; when it
starts with the token cpu and has at least 5 fields, computes used and
total tick counts, divides the deltas when the total delta passes the
x !== 0 test, and unconditionally stores the new used/total values.  A
`none` input models a throwing read: usage 0, counters untouched. -/
def getCurrentCPUUsage (input : Option String) (st : GlobalState) : JSNum × GlobalState :=
  match input with
  | none => (.fin 0, st)
  | some content =>
      let fields := jsTokenize ((jsSplitLines content).headI)
      if fields.headI = "cpu" ∧ 5 ≤ fields.length then
        let user := parseIntNum (fields.get? 1)
        let nice := parseIntNum (fields.get? 2)
        let sys := parseIntNum (fields.get? 3)
        let idle := parseIntNum (fields.get? 4)
        let used := (user.add nice).add sys
        let total := used.add idle
        let usage :=
          if (total.sub st.lastCPUTotal).neZero then
            (used.sub st.lastCPUUsed).div (total.sub st.lastCPUTotal)
          else .fin 0
        (usage, { st with lastCPUUsed := used, lastCPUTotal := total })
      else (.fin 0, st)

/-- The record returned by getMemoryInfo. -/
structure MemInfo where
  total : JSNum
  avail : JSNum
  swTotal : JSNum
  swFree : JSNum
deriving DecidableEq

/-- One iteration of the line loop of getMemoryInfo: lines with fewer
than 2 fields are skipped; otherwise field 1 is parsed and stored under
the recognised key names. -/
def memLineUpdate (mem : MemInfo) (line : String) : MemInfo :=
  let f := jsTokenize line
  if f.length < 2 then mem
  else
    let v := parseIntNum (f.get? 1)
    if f.headI = "MemTotal" then { mem with total := v }
    else if f.headI = "MemAvailable" then { mem with avail := v }
    else if f.headI = "SwapTotal" then { mem with swTotal := v }
    else if f.headI = "SwapFree" then { mem with swFree := v }
    else mem

/-- getMemoryInfo(): reads /proc/meminfo into a MemInfo record whose
fields start at 0; a `none` input models a throwing read, caught and
yielding the all-zero record. -/
def getMemoryInfo (input : Option String) : MemInfo :=
  match input with
  | none => ⟨.fin 0, .fin 0, .fin 0, .fin 0⟩
  | some content =>
      (jsSplitLines content).foldl memLineUpdate ⟨.fin 0, .fin 0, .fin 0, .fin 0⟩

/-- The netSpeedUnits table of extension.js. -/
def netSpeedUnits : List String := ["B", "K", "M", "G", "T", "P", "E", "Z", "Y"]

/-- The scaling loop of formatNetSpeed: while (amount >= 1000 && ui <
netSpeedUnits.length - 1) { amount /= 1000; ui++ }.  The loop body runs
at most netSpeedUnits.length - 1 times because ui increases by 1 each
time, so running it with fuel netSpeedUnits.length from ui = 0 is the
exact while loop. -/
def scaleLoop : ℕ → ℚ → ℕ → ℚ × ℕ
  | 0, amount, ui => (amount, ui)
  | fuel + 1, amount, ui =>
      if 1000 ≤ amount ∧ ui < netSpeedUnits.length - 1 then
        scaleLoop fuel (amount / 1000) (ui + 1)
      else (amount, ui)

/-- Left padding with '0' characters up to width w (used for the
fractional digits of toFixed). -/
def padZerosLeft (s : String) (w : ℕ) : String :=
  String.mk (List.replicate (w - s.length) '0') ++ s

/-- JavaScript String.prototype.padStart(w) with the default space pad. -/
def padStartSpaces (s : String) (w : ℕ) : String :=
  String.mk (List.replicate (w - s.length) ' ') ++ s

/-- JavaScript Number.prototype.toFixed(d) on a nonnegative rational:
round to d fractional digits, ties away from zero toward the larger
integer, and print with exactly d digits after the point (no point when
d = 0). -/
def toFixedNN (q : ℚ) (d : ℕ) : String :=
  let n : ℕ := (Int.floor (q * (10 : ℚ) ^ d + 1 / 2)).toNat
  if d = 0 then Nat.repr n
  else Nat.repr (n / 10 ^ d) ++ "." ++ padZerosLeft (Nat.repr (n % 10 ^ d)) d

/-- JavaScript Number.prototype.toFixed(d) on a finite value. -/
def toFixedQ (q : ℚ) (d : ℕ) : String :=
  if q < 0 then "-" ++ toFixedNN (-q) d else toFixedNN q d

/-- formatNetSpeed(amount, full) of extension.js.  On the special values
the JavaScript comparisons and toFixed degenerate: Infinity loops to the
last unit and prints "Infinity"; -Infinity and NaN fail the loop test at
ui = 0 and print "-Infinity" (d = 0 since -Infinity < 0.01) and the
pad-started "NaN" (d = 2). -/
def formatNetSpeed (amount : JSNum) (full : Bool) : String :=
  match amount with
  | .fin q =>
      let p := scaleLoop netSpeedUnits.length q 0
      let d : ℕ := if 100 ≤ p.1 ∨ p.1 < 1 / 100 then 0 else if 10 ≤ p.1 then 1 else 2
      padStartSpaces (toFixedQ p.1 d) 4 ++ " " ++ netSpeedUnits.getD p.2 "" ++
        (if full then "/s" else "")
  | .posInf =>
      padStartSpaces "Infinity" 4 ++ " " ++ netSpeedUnits.getD (netSpeedUnits.length - 1) "" ++
        (if full then "/s" else "")
  | .negInf =>
      padStartSpaces "-Infinity" 4 ++ " " ++ netSpeedUnits.getD 0 "" ++
        (if full then "/s" else "")
  | .nan =>
      padStartSpaces "NaN" 4 ++ " " ++ netSpeedUnits.getD 0 "" ++
        (if full then "/s" else "")

/-- JavaScript Math.round: nearest integer, ties toward positive
infinity. -/
def jsRound (q : ℚ) : ℤ := Int.floor (q + 1 / 2)

/-- formatUsage(val, extra, perc) of extension.js:
Math.round(val * 100).toString().padStart(extra ? 3 : 2) plus an
optional percent sign.  Math.round of a special value is itself and
prints via toString. -/
def formatUsage (val : JSNum) (extra perc : Bool) : String :=
  let core :=
    match val with
    | .fin q => Int.repr (jsRound (q * 100))
    | .posInf => "Infinity"
    | .negInf => "-Infinity"
    | .nan => "NaN"
  padStartSpaces core (if extra then 3 else 2) ++ (if perc then "%" else "")

/-- The per-extension mutable members of SSMExtension that the timer
logic touches: the cached refresh interval and the timeout source id. -/
structure OrchState where
  globals : GlobalState
  refreshIntervalVar : ℚ
  timeoutId : Option ℕ
deriving DecidableEq

/-- SSMExtension._setupTimer(): removes any existing timeout source,
caches the REFRESH_INTERVAL setting in this._refresh_interval, and
registers a new timeout (modelled by its fresh source id).  It does not
touch the four module-level counters.  This is also the whole effect of
the REFRESH_INTERVAL change handler. -/
def setupTimerStep (settingsInterval : ℚ) (newId : ℕ) (s : OrchState) : OrchState :=
  { s with refreshIntervalVar := settingsInterval, timeoutId := some newId }

/-- The estimator-state effect of SSMExtension.enable(): the four
module-level counters are reset to 0, then _setupTimer() runs. -/
def enableStep (settingsInterval : ℚ) (newId : ℕ) (s : OrchState) : OrchState :=
  setupTimerStep settingsInterval newId { s with globals := enableGlobals }

/-- The settings read in SSMExtension._refresh(). -/
structure Prefs where
  isCpuUsageEnable : Bool
  isMemoryUsageEnable : Bool
  isSwapUsageEnable : Bool
  isDownloadSpeedEnable : Bool
  isUploadSpeedEnable : Bool
  showExtraSpaces : Bool
  showPercentSign : Bool
  showFullNetSpeedUnit : Bool
  cpuUsageText : String
  memoryUsageText : String
  swapUsageText : String
  downloadSpeedText : String
  uploadSpeedText : String
  itemSeparator : String
deriving DecidableEq

/-- The CPU fragment of _refresh: pushed only when CPU usage is enabled,
reading /proc/stat and threading the counter state. -/
def cpuItemsOf (p : Prefs) (cpuInput : Option String) (st : GlobalState) :
    List String × GlobalState :=
  if p.isCpuUsageEnable then
    let r := getCurrentCPUUsage cpuInput st
    ([p.cpuUsageText ++ " " ++ formatUsage r.1 p.showExtraSpaces p.showPercentSign], r.2)
  else ([], st)

/-- The memory fragment of _refresh: pushed only when memory usage is
enabled and mem.total > 0, in which case the ratio
(mem.total - mem.avail) / mem.total is formatted. -/
def memItemsOf (p : Prefs) (mem : MemInfo) : List String :=
  if p.isMemoryUsageEnable && mem.total.gtZero then
    [p.memoryUsageText ++ " " ++
      formatUsage ((mem.total.sub mem.avail).div mem.total) p.showExtraSpaces p.showPercentSign]
  else []

/-- The swap fragment of _refresh: pushed only when swap usage is enabled
and mem.swTotal > 0, in which case the ratio
(mem.swTotal - mem.swFree) / mem.swTotal is formatted. -/
def swapItemsOf (p : Prefs) (mem : MemInfo) : List String :=
  if p.isSwapUsageEnable && mem.swTotal.gtZero then
    [p.swapUsageText ++ " " ++
      formatUsage ((mem.swTotal.sub mem.swFree).div mem.swTotal) p.showExtraSpaces p.showPercentSign]
  else []

/-- The network fragments of _refresh: /proc/net/dev is read once when
either direction is enabled, and each enabled direction is formatted. -/
def netItemsOf (p : Prefs) (netInput : Option String) (rInterval : ℚ) (st : GlobalState) :
    List String × GlobalState :=
  if p.isDownloadSpeedEnable || p.isUploadSpeedEnable then
    let r := getCurrentNetSpeed netInput rInterval st
    ((if p.isDownloadSpeedEnable then
        [p.downloadSpeedText ++ " " ++ formatNetSpeed r.1.1 p.showFullNetSpeedUnit]
      else []) ++
     (if p.isUploadSpeedEnable then
        [p.uploadSpeedText ++ " " ++ formatNetSpeed r.1.2 p.showFullNetSpeedUnit]
      else []), r.2)
  else ([], st)

/-- The items list built by one SSMExtension._refresh() tick, in push
order (CPU, memory, swap, download, upload), together with the counter
state after the tick.  rInterval is this._refresh_interval. -/
def refreshItems (p : Prefs) (memInput cpuInput netInput : Option String) (rInterval : ℚ)
    (st : GlobalState) : List String × GlobalState :=
  let mem := getMemoryInfo memInput
  let c := cpuItemsOf p cpuInput st
  let n := netItemsOf p netInput rInterval c.2
  (c.1 ++ memItemsOf p mem ++ swapItemsOf p mem ++ n.1, n.2)

/-- The display string emitted by one _refresh() tick:
items.join(ITEM_SEPARATOR). -/
def refreshTick (p : Prefs) (memInput cpuInput netInput : Option String) (rInterval : ℚ)
    (st : GlobalState) : String × GlobalState :=
  let r := refreshItems p memInput cpuInput netInput rInterval st
  (String.intercalate p.itemSeparator r.1, r.2)

/-!
Specification-side definitions for the network-table claim, written from
the spec's words rather than from the source: a line counts toward the
totals when it has at least 3 tokens, all its fields after the interface
name are plain decimal numerals, and its interface is not excluded; the
totals are the exact integer sums of fields 1 and 9 over the counted
lines.
-/

/-- A fully numeric field in the spec's sense: a nonempty string of
decimal digits. -/
def isDigitsTok (s : String) : Bool :=
  !s.data.isEmpty && s.data.all Char.isDigit

/-- A line of a valid network counter table: either a non-data line (at
most 2 tokens, like the /proc/net/dev headers and the trailing empty
line) or a full data row of at least 10 tokens whose fields after the
interface name are all numeric. -/
def validNetLine (l : String) : Bool :=
  decide ((jsTokenize l).length ≤ 2) ||
    (decide (10 ≤ (jsTokenize l).length) && ((jsTokenize l).drop 1).all isDigitsTok)

/-- The spec's criterion for a tokenized line to be counted in the
totals: at least 3 tokens, fully numeric fields, interface not
excluded. -/
def specNetLineOK (f : List String) : Bool :=
  decide (3 ≤ f.length) && (f.drop 1).all isDigitsTok && !(isExcludedIface f.headI)

/-- Integer value of field i of a tokenized line (fields here are plain
digit strings). -/
def specFieldVal (f : List String) (i : ℕ) : ℕ :=
  digitsToNat (f.getD i "").data

/-- The spec's exact integer sum of field 1 (received bytes) over the
counted lines. -/
def specNetDown (lines : List String) : ℕ :=
  (lines.map fun l =>
    if specNetLineOK (jsTokenize l) then specFieldVal (jsTokenize l) 1 else 0).sum

/-- The spec's exact integer sum of field 9 (transmitted bytes) over the
counted lines. -/
def specNetUp (lines : List String) : ℕ :=
  (lines.map fun l =>
    if specNetLineOK (jsTokenize l) then specFieldVal (jsTokenize l) 9 else 0).sum

/-!
Theorems.  Each claim of the specification is settled below; helper
lemmas for the network-table claim precede it.
-/

/-- Claim C10: a failing network counter read is atomic with respect to
estimator state: getCurrentNetSpeed returns the zero rate pair
{down: 0, up: 0} and leaves both stored previous totals (indeed the
whole counter state) unchanged, so the next successful tick diffs
against the last successfully read totals. -/
theorem net_read_failure_atomic (r : ℚ) (st : GlobalState) :
    getCurrentNetSpeed none r st = ((.fin 0, .fin 0), st) := rfl

/-- Claim C8 (amended): an I/O failure (a throwing read, modelled by the
`none` input) never raises and yields the zero/empty snapshot for that
source, with the counter state untouched; however a parse failure inside
a line that passes the shape checks is not turned into a zero snapshot
(see the counterexample: NaN fields propagate into the CPU usage and the
memory record). -/
theorem readers_io_failure_zero (r : ℚ) (st : GlobalState) :
    getCurrentNetSpeed none r st = ((.fin 0, .fin 0), st) ∧
    getCurrentCPUUsage none st = (.fin 0, st) ∧
    getMemoryInfo none = ⟨.fin 0, .fin 0, .fin 0, .fin 0⟩ :=
  ⟨rfl, rfl, rfl⟩

/-- Claim C8, counterexample: the /proc/stat content "cpu aa bb cc dd"
is a parse failure (non-numeric fields) on a line that passes the shape
check, and the CPU reader returns NaN for it, not the zero snapshot the
claim asserts. -/
theorem cpu_parse_failure_not_zero :
    (getCurrentCPUUsage (some "cpu aa bb cc dd") enableGlobals).1 = JSNum.nan ∧
    JSNum.nan ≠ JSNum.fin 0 := by
  with_unfolding_all decide

/-- Claim C3, counterexample: with the counter state at (5, 6, 7, 8), an
interval-configuration change (_setupTimer) leaves the counters at
(5, 6, 7, 8), which is not the cleared state produced by a
disable/re-enable. -/
theorem interval_change_keeps_state :
    (setupTimerStep 2 1 ⟨⟨.fin 5, .fin 6, .fin 7, .fin 8⟩, 1, some 0⟩).globals =
      ⟨.fin 5, .fin 6, .fin 7, .fin 8⟩ ∧
    (⟨.fin 5, .fin 6, .fin 7, .fin 8⟩ : GlobalState) ≠ enableGlobals := by
  with_unfolding_all decide

/-- Claim C3 (amended): changing the refresh interval only replaces the
timer (caching the new interval and registering a new source id) and
does not touch the estimator state; only enable() resets the four
previous values to the 0 sentinel. -/
theorem setup_timer_only_restarts (iv : ℚ) (id0 : ℕ) (s : OrchState) :
    (setupTimerStep iv id0 s).globals = s.globals ∧
    (setupTimerStep iv id0 s).refreshIntervalVar = iv ∧
    (setupTimerStep iv id0 s).timeoutId = some id0 ∧
    (enableStep iv id0 s).globals = enableGlobals :=
  ⟨rfl, rfl, rfl, rfl⟩

/-- Claim C7, counterexample: formatNetSpeed(999, false) is " 999 B"
(the number is left-padded to width 4), not the "999 B" of the claim. -/
theorem format_999_not_unpadded :
    formatNetSpeed (.fin 999) false = " 999 B" ∧
    (" 999 B" : String) ≠ "999 B" := by
  with_unfolding_all decide

/-- Claim C7 (amended): the three worked examples with the padding the
formatter actually produces: formatNetSpeed(5000, false) = "5.00 K",
formatNetSpeed(999, false) = " 999 B" (left-padded to width 4), and
formatNetSpeed(1500000, true) = "1.50 M/s". -/
theorem formatter_worked_examples :
    formatNetSpeed (.fin 5000) false = "5.00 K" ∧
    formatNetSpeed (.fin 999) false = " 999 B" ∧
    formatNetSpeed (.fin 1500000) true = "1.50 M/s" := by
  with_unfolding_all decide

/-- Claim C1, counterexample: immediately after a state reset, a first
CPU sample of "cpu 30 0 0 70" yields usage 30/100 = 3/10, not 0: the 0
sentinel is used as a genuine previous sample by the CPU estimator. -/
theorem cpu_first_sample_not_zero :
    (getCurrentCPUUsage (some "cpu 30 0 0 70") enableGlobals).1 = JSNum.fin (3 / 10) ∧
    JSNum.fin ((3 : ℚ) / 10) ≠ JSNum.fin 0 := by
  with_unfolding_all decide

/-- Claim C2, counterexample: with previous totals (1000, 50) and current
totals (100, 9) over a 2-second interval, the computed rates are the
negative values -450 and -41/2: the estimator neither clamps to 0 nor
treats the decrease as a warm-up. -/
theorem net_decrease_negative_rate :
    (getCurrentNetSpeed (some "eth0 100 2 3 4 5 6 7 8 9 10") 2
        ⟨.fin 1000, .fin 50, .fin 0, .fin 0⟩).1 =
      (.fin (-450), .fin (-41 / 2)) ∧
    ((-450 : ℚ) < 0 ∧ (-41 / 2 : ℚ) < 0) := by
  with_unfolding_all decide

/-- Claim C5, counterexample: with previous down total 500 and a zero
refresh interval, the computed down rate is Infinity, not the fallback 0
the claim asserts. -/
theorem net_zero_interval_infinity :
    (getCurrentNetSpeed (some "eth0 1000 2 3 4 5 6 7 8 9 10") 0
        ⟨.fin 500, .fin 0, .fin 0, .fin 0⟩).1.1 = JSNum.posInf ∧
    JSNum.posInf ≠ JSNum.fin 0 := by
  with_unfolding_all decide

/-- Claim C4, counterexample: with stored previous (used, total) =
(5, 10) and a sample "cpu 7 0 0 3" (used 7, total 10, zero denominator),
the usage is 0 but the stored previous-used value is updated from 5 to
7, not left unchanged as the claim asserts. -/
theorem cpu_degenerate_prev_used_updated :
    getCurrentCPUUsage (some "cpu 7 0 0 3") ⟨.fin 0, .fin 0, .fin 5, .fin 10⟩ =
      (.fin 0, ⟨.fin 0, .fin 0, .fin 7, .fin 10⟩) ∧
    JSNum.fin 7 ≠ JSNum.fin 5 := by
  with_unfolding_all decide

/-- Claim C2 (amended): when the current cumulative totals are strictly
below the stored previous totals (both non-sentinel) over a positive
interval, the computed rates are the signed differences divided by the
interval — strictly negative values, not clamped and not treated as a
warm-up — and the previous totals are nonetheless updated to the current
totals. -/
theorem net_decrease_signed_rate (c : String) (r : ℚ) (st : GlobalState) (pd pu : ℚ)
    (hd : st.lastTotalNetDownBytes = .fin pd) (hd0 : pd ≠ 0)
    (hu : st.lastTotalNetUpBytes = .fin pu) (hu0 : pu ≠ 0)
    (hdlt : ((netTotals c).1 : ℚ) < pd) (hult : ((netTotals c).2 : ℚ) < pu)
    (hr : 0 < r) :
    (getCurrentNetSpeed (some c) r st).1 =
      (.fin ((((netTotals c).1 : ℚ) - pd) / r), .fin ((((netTotals c).2 : ℚ) - pu) / r)) ∧
    (((netTotals c).1 : ℚ) - pd) / r < 0 ∧ (((netTotals c).2 : ℚ) - pu) / r < 0 ∧
    (getCurrentNetSpeed (some c) r st).2 =
      { st with lastTotalNetDownBytes := .fin ((netTotals c).1 : ℚ),
                lastTotalNetUpBytes := .fin ((netTotals c).2 : ℚ) } := by
  have hr0 : r ≠ 0 := ne_of_gt hr
  refine ⟨?_, ?_, ?_, rfl⟩
  · simp [getCurrentNetSpeed, hd, hu, hd0, hu0, hr0, JSNum.neZero, JSNum.sub, JSNum.neg,
      JSNum.add, JSNum.div, ← sub_eq_add_neg]
  · exact div_neg_of_neg_of_pos (sub_neg.mpr hdlt) hr
  · exact div_neg_of_neg_of_pos (sub_neg.mpr hult) hr

/-- Claim C2, witness: the amended statement at the concrete decreasing
sample of the counterexample. -/
theorem net_decrease_signed_rate_check :
    ((netTotals "eth0 100 2 3 4 5 6 7 8 9 10").1 : ℚ) < 1000 ∧ (0 : ℚ) < 2 ∧
    (getCurrentNetSpeed (some "eth0 100 2 3 4 5 6 7 8 9 10") 2
        ⟨.fin 1000, .fin 50, .fin 0, .fin 0⟩).1 =
      (.fin ((((netTotals "eth0 100 2 3 4 5 6 7 8 9 10").1 : ℚ) - 1000) / 2),
       .fin ((((netTotals "eth0 100 2 3 4 5 6 7 8 9 10").2 : ℚ) - 50) / 2)) := by
  refine ⟨by with_unfolding_all decide, by norm_num, ?_⟩
  exact (net_decrease_signed_rate "eth0 100 2 3 4 5 6 7 8 9 10" 2
    ⟨.fin 1000, .fin 50, .fin 0, .fin 0⟩ 1000 50 rfl (by norm_num) rfl (by norm_num)
    (by with_unfolding_all decide) (by with_unfolding_all decide) (by norm_num)).1

/-- Claim C5 (amended): with a non-sentinel previous total the source
divides regardless of the interval: a zero interval yields Infinity,
-Infinity or NaN according to the sign of the counter delta (never the
fallback 0 of the claim), and a negative interval yields the finite
sign-flipped quotient; the previous totals are updated in every case. -/
theorem net_degenerate_interval_divides (c : String) (st : GlobalState) (pd : ℚ)
    (hd : st.lastTotalNetDownBytes = .fin pd) (hd0 : pd ≠ 0) :
    ((getCurrentNetSpeed (some c) 0 st).1.1 =
      if pd < ((netTotals c).1 : ℚ) then JSNum.posInf
      else if ((netTotals c).1 : ℚ) < pd then JSNum.negInf
      else JSNum.nan) ∧
    (∀ r : ℚ, r < 0 →
      (getCurrentNetSpeed (some c) r st).1.1 = .fin ((((netTotals c).1 : ℚ) - pd) / r)) ∧
    (∀ r : ℚ, (getCurrentNetSpeed (some c) r st).2.lastTotalNetDownBytes =
      .fin ((netTotals c).1 : ℚ)) := by
  refine ⟨?_, fun r hr => ?_, fun r => rfl⟩
  · simp [getCurrentNetSpeed, hd, hd0, JSNum.neZero, JSNum.sub, JSNum.neg, JSNum.add,
      JSNum.div, ← sub_eq_add_neg, sub_pos, sub_neg]
  · have hr0 : r ≠ 0 := ne_of_lt hr
    simp [getCurrentNetSpeed, hd, hd0, hr0, JSNum.neZero, JSNum.sub, JSNum.neg, JSNum.add,
      JSNum.div, ← sub_eq_add_neg]

/-- Claim C5, witness: the amended statement at the concrete inputs of
the counterexample, for the zero and a negative interval. -/
theorem net_degenerate_interval_check :
    ((500 : ℚ) ≠ 0) ∧
    (getCurrentNetSpeed (some "eth0 1000 2 3 4 5 6 7 8 9 10") 0
        ⟨.fin 500, .fin 0, .fin 0, .fin 0⟩).1.1 =
      (if (500 : ℚ) < ((netTotals "eth0 1000 2 3 4 5 6 7 8 9 10").1 : ℚ) then JSNum.posInf
       else if ((netTotals "eth0 1000 2 3 4 5 6 7 8 9 10").1 : ℚ) < 500 then JSNum.negInf
       else JSNum.nan) ∧
    (getCurrentNetSpeed (some "eth0 1000 2 3 4 5 6 7 8 9 10") (-1)
        ⟨.fin 500, .fin 0, .fin 0, .fin 0⟩).1.1 =
      .fin ((((netTotals "eth0 1000 2 3 4 5 6 7 8 9 10").1 : ℚ) - 500) / (-1)) := by
  refine ⟨by norm_num,
    (net_degenerate_interval_divides "eth0 1000 2 3 4 5 6 7 8 9 10"
      ⟨.fin 500, .fin 0, .fin 0, .fin 0⟩ 500 rfl (by norm_num)).1,
    (net_degenerate_interval_divides "eth0 1000 2 3 4 5 6 7 8 9 10"
      ⟨.fin 500, .fin 0, .fin 0, .fin 0⟩ 500 rfl (by norm_num)).2.1 (-1) (by norm_num)⟩

/-- Claim C1 (amended): immediately after a state reset, the first tick
yields network rate 0 for both directions and stores the current totals
as the new previous values; the CPU estimator however treats the 0
sentinel as a genuine previous sample: its first usage value is
used/total (the average usage since the counters started), not 0, and
the current used/total are stored. -/
theorem first_tick_after_reset (netC cpuC : String) (r : ℚ) (qu qn qs qi : ℚ)
    (hf : (jsTokenize ((jsSplitLines cpuC).headI)).headI = "cpu")
    (hl : 5 ≤ (jsTokenize ((jsSplitLines cpuC).headI)).length)
    (h1 : parseIntNum ((jsTokenize ((jsSplitLines cpuC).headI)).get? 1) = .fin qu)
    (h2 : parseIntNum ((jsTokenize ((jsSplitLines cpuC).headI)).get? 2) = .fin qn)
    (h3 : parseIntNum ((jsTokenize ((jsSplitLines cpuC).headI)).get? 3) = .fin qs)
    (h4 : parseIntNum ((jsTokenize ((jsSplitLines cpuC).headI)).get? 4) = .fin qi)
    (ht : qu + qn + qs + qi ≠ 0) :
    getCurrentNetSpeed (some netC) r enableGlobals =
      ((.fin 0, .fin 0),
        ⟨.fin ((netTotals netC).1 : ℚ), .fin ((netTotals netC).2 : ℚ), .fin 0, .fin 0⟩) ∧
    getCurrentCPUUsage (some cpuC) enableGlobals =
      (.fin ((qu + qn + qs) / (qu + qn + qs + qi)),
        ⟨.fin 0, .fin 0, .fin (qu + qn + qs), .fin (qu + qn + qs + qi)⟩) := by
  constructor
  · simp [getCurrentNetSpeed, enableGlobals, JSNum.neZero]
  · simp only [getCurrentCPUUsage]
    rw [if_pos ⟨hf, hl⟩, h1, h2, h3, h4]
    simp [ht, enableGlobals, JSNum.add, JSNum.sub, JSNum.neg, JSNum.neZero, JSNum.div]

/-- Claim C1, witness: the amended statement at the concrete first
/proc/stat sample "cpu 30 0 0 70" and a one-interface network table. -/
theorem first_tick_after_reset_check :
    (jsTokenize ((jsSplitLines "cpu 30 0 0 70").headI)).headI = "cpu" ∧
    ((30 : ℚ) + 0 + 0 + 70 ≠ 0) ∧
    getCurrentNetSpeed (some "eth0: 500 0 0 0 0 0 0 0 600 0") 1 enableGlobals =
      ((.fin 0, .fin 0),
        ⟨.fin ((netTotals "eth0: 500 0 0 0 0 0 0 0 600 0").1 : ℚ),
         .fin ((netTotals "eth0: 500 0 0 0 0 0 0 0 600 0").2 : ℚ), .fin 0, .fin 0⟩) ∧
    getCurrentCPUUsage (some "cpu 30 0 0 70") enableGlobals =
      (.fin (((30 : ℚ) + 0 + 0) / ((30 : ℚ) + 0 + 0 + 70)),
        ⟨.fin 0, .fin 0, .fin ((30 : ℚ) + 0 + 0), .fin ((30 : ℚ) + 0 + 0 + 70)⟩) := by
  have h := first_tick_after_reset "eth0: 500 0 0 0 0 0 0 0 600 0" "cpu 30 0 0 70" 1
    30 0 0 70 (by decide) (by decide) (by with_unfolding_all decide)
    (by with_unfolding_all decide) (by with_unfolding_all decide)
    (by with_unfolding_all decide) (by norm_num)
  exact ⟨by decide, by norm_num, h.1, h.2⟩

/-- Claim C4 (amended): when the parsed CPU total equals the stored
previous total (zero denominator), the reported usage is 0, but the
stored previous-used and previous-total values are both updated to the
current parsed values (the update is unconditional in the source), not
left unchanged. -/
theorem cpu_degenerate_zero_and_update (c : String) (st : GlobalState) (qu qn qs qi : ℚ)
    (hf : (jsTokenize ((jsSplitLines c).headI)).headI = "cpu")
    (hl : 5 ≤ (jsTokenize ((jsSplitLines c).headI)).length)
    (h1 : parseIntNum ((jsTokenize ((jsSplitLines c).headI)).get? 1) = .fin qu)
    (h2 : parseIntNum ((jsTokenize ((jsSplitLines c).headI)).get? 2) = .fin qn)
    (h3 : parseIntNum ((jsTokenize ((jsSplitLines c).headI)).get? 3) = .fin qs)
    (h4 : parseIntNum ((jsTokenize ((jsSplitLines c).headI)).get? 4) = .fin qi)
    (hprev : st.lastCPUTotal = .fin (qu + qn + qs + qi)) :
    getCurrentCPUUsage (some c) st =
      (.fin 0, { st with lastCPUUsed := .fin (qu + qn + qs),
                         lastCPUTotal := .fin (qu + qn + qs + qi) }) := by
  simp only [getCurrentCPUUsage]
  rw [if_pos ⟨hf, hl⟩, h1, h2, h3, h4, hprev]
  simp only [JSNum.add]
  have hden : (JSNum.fin (qu + qn + qs + qi)).sub (JSNum.fin (qu + qn + qs + qi)) =
      JSNum.fin 0 := by
    simp only [JSNum.sub, JSNum.neg, JSNum.add]
    congr 1
    ring
  rw [hden]
  simp [JSNum.neZero]

/-- Claim C4, witness: the amended statement at the concrete sample
"cpu 7 0 0 3" against stored previous (used, total) = (5, 10). -/
theorem cpu_degenerate_zero_and_update_check :
    ((⟨.fin 0, .fin 0, .fin 5, .fin 10⟩ : GlobalState).lastCPUTotal =
      .fin ((7 : ℚ) + 0 + 0 + 3)) ∧
    getCurrentCPUUsage (some "cpu 7 0 0 3") ⟨.fin 0, .fin 0, .fin 5, .fin 10⟩ =
      (.fin 0, { (⟨.fin 0, .fin 0, .fin 5, .fin 10⟩ : GlobalState) with
                   lastCPUUsed := .fin ((7 : ℚ) + 0 + 0),
                   lastCPUTotal := .fin ((7 : ℚ) + 0 + 0 + 3) }) := by
  refine ⟨by norm_num, ?_⟩
  exact cpu_degenerate_zero_and_update "cpu 7 0 0 3" ⟨.fin 0, .fin 0, .fin 5, .fin 10⟩
    7 0 0 3 (by decide) (by decide) (by with_unfolding_all decide)
    (by with_unfolding_all decide) (by with_unfolding_all decide)
    (by with_unfolding_all decide) (by norm_num)

/-- Claim C9: the memory ratio (total - avail) / total is computed and
pushed only when memory display is enabled and total > 0, and the swap
ratio only when swap display is enabled and swTotal > 0; when the
corresponding total reads as 0 the tick's output is the same as with the
metric disabled (the ratio is neither computed nor reported). -/
theorem mem_swap_ratio_guarded (p : Prefs) (mi ci ni : Option String) (r : ℚ)
    (st : GlobalState) :
    ((getMemoryInfo mi).total.gtZero = false →
      refreshItems p mi ci ni r st =
        refreshItems { p with isMemoryUsageEnable := false } mi ci ni r st) ∧
    ((getMemoryInfo mi).swTotal.gtZero = false →
      refreshItems p mi ci ni r st =
        refreshItems { p with isSwapUsageEnable := false } mi ci ni r st) ∧
    (p.isMemoryUsageEnable = true → (getMemoryInfo mi).total.gtZero = true →
      p.memoryUsageText ++ " " ++
        formatUsage (((getMemoryInfo mi).total.sub (getMemoryInfo mi).avail).div
          (getMemoryInfo mi).total) p.showExtraSpaces p.showPercentSign ∈
        (refreshItems p mi ci ni r st).1) ∧
    (p.isSwapUsageEnable = true → (getMemoryInfo mi).swTotal.gtZero = true →
      p.swapUsageText ++ " " ++
        formatUsage (((getMemoryInfo mi).swTotal.sub (getMemoryInfo mi).swFree).div
          (getMemoryInfo mi).swTotal) p.showExtraSpaces p.showPercentSign ∈
        (refreshItems p mi ci ni r st).1) := by
  refine ⟨fun h => ?_, fun h => ?_, fun hp h => ?_, fun hp h => ?_⟩
  · simp [refreshItems, memItemsOf, swapItemsOf, cpuItemsOf, netItemsOf, h]
  · simp [refreshItems, memItemsOf, swapItemsOf, cpuItemsOf, netItemsOf, h]
  · simp [refreshItems, memItemsOf, swapItemsOf, cpuItemsOf, netItemsOf, hp, h]
  · simp [refreshItems, memItemsOf, swapItemsOf, cpuItemsOf, netItemsOf, hp, h]

/-- Claim C9, witness: with /proc/meminfo content lacking MemTotal the
memory total reads 0 and the tick output equals the memory-disabled
output; with MemTotal present and positive the memory fragment is
reported. -/
theorem mem_swap_ratio_guarded_check :
    (getMemoryInfo (some "MemAvailable: 40")).total.gtZero = false ∧
    refreshItems ⟨true, true, true, true, true, false, true, false,
        "C", "M", "S", "D", "U", " | "⟩ (some "MemAvailable: 40") none none 1 enableGlobals =
      refreshItems { (⟨true, true, true, true, true, false, true, false,
          "C", "M", "S", "D", "U", " | "⟩ : Prefs) with isMemoryUsageEnable := false }
        (some "MemAvailable: 40") none none 1 enableGlobals ∧
    (getMemoryInfo (some "MemTotal: 100\nMemAvailable: 40")).total.gtZero = true ∧
    ("M" ++ " " ++
        formatUsage (((getMemoryInfo (some "MemTotal: 100\nMemAvailable: 40")).total.sub
          (getMemoryInfo (some "MemTotal: 100\nMemAvailable: 40")).avail).div
          (getMemoryInfo (some "MemTotal: 100\nMemAvailable: 40")).total) false true) ∈
      (refreshItems ⟨true, true, true, true, true, false, true, false,
        "C", "M", "S", "D", "U", " | "⟩ (some "MemTotal: 100\nMemAvailable: 40")
        none none 1 enableGlobals).1 := by
  refine ⟨by with_unfolding_all decide,
    (mem_swap_ratio_guarded ⟨true, true, true, true, true, false, true, false,
      "C", "M", "S", "D", "U", " | "⟩ (some "MemAvailable: 40") none none 1
      enableGlobals).1 (by with_unfolding_all decide),
    by with_unfolding_all decide, ?_⟩
  exact (mem_swap_ratio_guarded ⟨true, true, true, true, true, false, true, false,
    "C", "M", "S", "D", "U", " | "⟩ (some "MemTotal: 100\nMemAvailable: 40") none none 1
    enableGlobals).2.2.1 rfl (by with_unfolding_all decide)

/-- An element read with getD at an in-range index is a member of the
list. -/
theorem getD_mem_of_lt {α : Type} {l : List α} {n : ℕ} {d : α} (h : n < l.length) :
    l.getD n d ∈ l := by
  rw [List.getD_eq_getElem?_getD, List.getElem?_eq_getElem h]
  exact List.getElem_mem h

/-- get? at an in-range index returns the getD value. -/
theorem get?_eq_some_getD {α : Type} {l : List α} {n : ℕ} {d : α} (h : n < l.length) :
    l.get? n = some (l.getD n d) := by
  rw [List.get?_eq_getElem?, List.getElem?_eq_getElem h, List.getD_eq_getElem?_getD,
    List.getElem?_eq_getElem h]
  rfl

/-- An element read with getD at an in-range index at least 1 is a
member of the tail. -/
theorem getD_mem_drop_one {α : Type} {l : List α} {n : ℕ} {d : α} (h1 : 1 ≤ n)
    (hlt : n < l.length) : l.getD n d ∈ l.drop 1 := by
  have hn : 1 + (n - 1) = n := by omega
  have he : l.getD n d = (l.drop 1).getD (n - 1) d := by
    rw [List.getD_eq_getElem?_getD, List.getD_eq_getElem?_getD, List.getElem?_drop, hn]
  rw [he]
  apply getD_mem_of_lt
  rw [List.length_drop]
  omega

/-- takeWhile is the identity on a list all of whose elements satisfy
the predicate. -/
theorem takeWhile_eq_self_of_all {p : Char → Bool} {l : List Char}
    (h : ∀ c ∈ l, p c = true) : l.takeWhile p = l := by
  induction l with
  | nil => rfl
  | cons c cs ih =>
      have hc := h c (List.mem_cons_self c cs)
      rw [List.takeWhile_cons, if_pos hc, ih fun x hx => h x (List.mem_cons_of_mem c hx)]

/-- parseInt on a nonempty all-decimal-digits token returns exactly its
decimal value. -/
theorem parseIntJS_of_digits (s : String) (h : isDigitsTok s = true) :
    parseIntJS s = some (digitsToNat s.data) := by
  have hb := h
  simp only [isDigitsTok, Bool.and_eq_true] at hb
  obtain ⟨hneb, hallb⟩ := hb
  have hall : ∀ c ∈ s.data, c.isDigit = true := List.all_eq_true.mp hallb
  have hne : s.data.isEmpty = false := by
    cases he : s.data.isEmpty
    · rfl
    · rw [he] at hneb
      exact absurd hneb (by decide)
  have hcond : ¬ (2 ≤ s.data.length ∧ s.data.headI = '0' ∧
      (s.data.getD 1 ' ' = 'x' ∨ s.data.getD 1 ' ' = 'X')) := by
    rintro ⟨hlen, -, hx⟩
    have hmem : s.data.getD 1 ' ' ∈ s.data := getD_mem_of_lt (by omega)
    have hdig := hall _ hmem
    rcases hx with hx | hx <;> rw [hx] at hdig <;> exact absurd hdig (by decide)
  rw [parseIntJS]
  rw [if_neg hcond, takeWhile_eq_self_of_all hall]
  simp [hne]

/-- The anchored pattern p[0-9]+ matches a string exactly when the
string is p followed by a digit and then anything. -/
theorem patDigitMatch_iff (p : List Char) : ∀ s : List Char,
    patDigitMatch p s = true ↔ ∃ c cs, s = p ++ c :: cs ∧ c.isDigit = true := by
  induction p with
  | nil =>
      intro s
      cases s with
      | nil => simp [patDigitMatch]
      | cons c cs => simp [patDigitMatch]
  | cons q ps ih =>
      intro s
      cases s with
      | nil => simp [patDigitMatch]
      | cons c cs =>
          simp only [patDigitMatch, Bool.and_eq_true, beq_iff_eq, ih cs, List.cons_append,
            List.cons.injEq]
          constructor
          · rintro ⟨hqc, d, ds, rfl, hd⟩
            exact ⟨d, ds, ⟨hqc.symm, rfl⟩, hd⟩
          · rintro ⟨d, ds, ⟨hcq, hcs⟩, hd⟩
            exact ⟨hcq.symm, d, ds, hcs, hd⟩

/-- The source's interface exclusion holds exactly for the name lo or a
virtual/tunnel pattern name followed by at least one digit, as the spec
words it. -/
theorem isExcludedIface_iff (s : String) :
    isExcludedIface s = true ↔
      s = "lo" ∨ ∃ p ∈ excludedIfacePats, ∃ c cs,
        s.data = p.data ++ c :: cs ∧ c.isDigit = true := by
  simp [isExcludedIface, matchesVirtualIface, List.any_eq_true, patDigitMatch_iff]

/-- One loop iteration of the network reader on a valid line adds
exactly the spec's per-line contribution: field values of counted lines,
0 for skipped or excluded lines. -/
theorem netLineContrib_of_valid (acc : ℕ × ℕ) (l : String) (h : validNetLine l = true) :
    netLineContrib acc l =
      (acc.1 + (if specNetLineOK (jsTokenize l) then specFieldVal (jsTokenize l) 1 else 0),
       acc.2 + (if specNetLineOK (jsTokenize l) then specFieldVal (jsTokenize l) 9 else 0)) := by
  have h' := h
  simp only [validNetLine, Bool.or_eq_true, Bool.and_eq_true, decide_eq_true_eq] at h'
  rcases h' with hshort | ⟨h10, hallb⟩
  · have hnok : specNetLineOK (jsTokenize l) = false := by
      have h3 : ¬ 3 ≤ (jsTokenize l).length := by omega
      simp [specNetLineOK, h3]
    simp [netLineContrib, hshort, hnok]
  · have hall := List.all_eq_true.mp hallb
    have hnle : ¬ (jsTokenize l).length ≤ 2 := by omega
    have ht1mem : (jsTokenize l).getD 1 "" ∈ (jsTokenize l).drop 1 :=
      getD_mem_drop_one (by omega) (by omega)
    have ht9mem : (jsTokenize l).getD 9 "" ∈ (jsTokenize l).drop 1 :=
      getD_mem_drop_one (by omega) (by omega)
    have hp1 : parseIntAt (jsTokenize l) 1 =
        some (digitsToNat ((jsTokenize l).getD 1 "").data) := by
      have hg := get?_eq_some_getD (l := jsTokenize l) (n := 1) (d := "") (by omega)
      simp only [parseIntAt, hg]
      exact parseIntJS_of_digits _ (hall _ ht1mem)
    have hp9 : parseIntAt (jsTokenize l) 9 =
        some (digitsToNat ((jsTokenize l).getD 9 "").data) := by
      have hg := get?_eq_some_getD (l := jsTokenize l) (n := 9) (d := "") (by omega)
      simp only [parseIntAt, hg]
      exact parseIntJS_of_digits _ (hall _ ht9mem)
    cases hex : isExcludedIface (jsTokenize l).headI with
    | true =>
        have hd : (jsTokenize l).headI = "lo" ∨ matchesVirtualIface (jsTokenize l).headI = true := by
          have := hex
          simp only [isExcludedIface, Bool.or_eq_true, beq_iff_eq] at this
          exact this
        have hnok : specNetLineOK (jsTokenize l) = false := by
          simp [specNetLineOK, hex]
        rw [hnok]
        simp only [netLineContrib, if_neg hnle]
        rw [if_pos (by tauto)]
        simp
    | false =>
        have hd : ¬ ((jsTokenize l).headI = "lo" ∨
            matchesVirtualIface (jsTokenize l).headI = true) := by
          rintro (hlo | hv)
          · simp [isExcludedIface, hlo] at hex
          · simp [isExcludedIface, hv] at hex
        have hok : specNetLineOK (jsTokenize l) = true := by
          have h3 : 3 ≤ (jsTokenize l).length := by omega
          rw [specNetLineOK, Bool.and_eq_true, Bool.and_eq_true]
          refine ⟨⟨by simpa using h3, hallb⟩, by simp [hex]⟩
        rw [hok]
        simp only [netLineContrib, if_neg hnle]
        rw [if_neg (by simp only [hp1, hp9]; tauto)]
        simp [hp1, hp9, specFieldVal]

/-- The accumulation loop of the network reader over a valid table
computes exactly the spec's sums, shifted by the accumulator. -/
theorem foldl_netLineContrib (lines : List String) :
    ∀ acc : ℕ × ℕ, lines.all validNetLine = true →
      lines.foldl netLineContrib acc = (acc.1 + specNetDown lines, acc.2 + specNetUp lines) := by
  induction lines with
  | nil =>
      intro acc _
      simp [specNetDown, specNetUp]
  | cons l ls ih =>
      intro acc h
      rw [List.all_cons, Bool.and_eq_true] at h
      obtain ⟨hl, hls⟩ := h
      rw [List.foldl_cons, netLineContrib_of_valid acc l hl, ih _ hls]
      simp only [specNetDown, specNetUp, List.map_cons, List.sum_cons]
      rw [Prod.mk.injEq]
      exact ⟨Nat.add_assoc .., Nat.add_assoc ..⟩

/-- Claim C6: on a valid network counter table the interface filter
excludes exactly the interfaces named lo or bearing one of the
virtual/tunnel name literals followed by one or more digits, and the
computed down/up totals are the exact integer sums of fields 1 and 9
over all non-excluded, fully numeric lines with at least 3 tokens. -/
theorem net_filter_and_exact_sums (content : String)
    (h : (jsSplitLines content).all validNetLine = true) :
    netTotals content =
      (specNetDown (jsSplitLines content), specNetUp (jsSplitLines content)) ∧
    ∀ name : String, isExcludedIface name = true ↔
      (name = "lo" ∨ ∃ p ∈ excludedIfacePats, ∃ c cs,
        name.data = p.data ++ c :: cs ∧ c.isDigit = true) := by
  refine ⟨?_, fun name => isExcludedIface_iff name⟩
  rw [netTotals, foldl_netLineContrib _ (0, 0) h]
  simp

/-- Claim C6, witness: a concrete table with a header line, a counted
interface, the loopback and a virtual bridge, on which the totals are
the field sums of the one counted line. -/
theorem net_filter_and_exact_sums_check :
    (jsSplitLines
        "Inter|face\n eth0: 1000 0 0 0 0 0 0 0 2000 0\n lo: 50 0 0 0 0 0 0 0 60 0\n br0: 7 0 0 0 0 0 0 0 8 0\n").all
      validNetLine = true ∧
    netTotals
        "Inter|face\n eth0: 1000 0 0 0 0 0 0 0 2000 0\n lo: 50 0 0 0 0 0 0 0 60 0\n br0: 7 0 0 0 0 0 0 0 8 0\n" =
      (specNetDown (jsSplitLines
        "Inter|face\n eth0: 1000 0 0 0 0 0 0 0 2000 0\n lo: 50 0 0 0 0 0 0 0 60 0\n br0: 7 0 0 0 0 0 0 0 8 0\n"),
       specNetUp (jsSplitLines
        "Inter|face\n eth0: 1000 0 0 0 0 0 0 0 2000 0\n lo: 50 0 0 0 0 0 0 0 60 0\n br0: 7 0 0 0 0 0 0 0 8 0\n")) := by
  refine ⟨by decide, (net_filter_and_exact_sums _ (by decide)).1⟩
